import Mathlib

/-!
Verification of the Budgeted Review Orchestration Engine
(`smart-filter.ts`, `strategy-selector.ts`, `pattern-matcher.ts`,
`consensus-engine.ts`, `metrics-calculator.ts`).

The TypeScript sources are shallowly embedded: JavaScript strings are
Lean `String`s (matching JS exactly on the ASCII data that appears in
the rule tables and catalogs), JavaScript numbers holding integer
counts/budgets are `Nat`, and the floating-point pattern-matching
scores are exact rationals (`Rat`); JS regular-expression objects are
embedded as their `test` functions `String → Bool`, spelled out
explicitly for each pattern of the built-in rule table.
-/

namespace DialecticPR

/-! ### String primitives

JavaScript `String.prototype.includes`, `endsWith` and `toLowerCase`
(the inputs appearing here are ASCII), written as structural recursion
over the character list so that concrete instances evaluate by
`decide`. -/

/-- Is the first list a prefix of the second? -/
def chPfx : List Char → List Char → Bool
  | [], _ => true
  | _ :: _, [] => false
  | a :: as, b :: bs => a == b && chPfx as bs

/-- Does `needle` occur as a contiguous sublist of the second list? -/
def chSub (needle : List Char) : List Char → Bool
  | [] => needle.isEmpty
  | c :: rest => chPfx needle (c :: rest) || chSub needle rest

/-- JavaScript `hay.includes(needle)` (substring containment). -/
def strIncludes (hay needle : String) : Bool :=
  chSub needle.data hay.data

/-- JavaScript `s.endsWith(suffixStr)`. -/
def strEndsWith (s suffixStr : String) : Bool :=
  chPfx suffixStr.data.reverse s.data.reverse

/-- JavaScript `s.toLowerCase()` restricted to ASCII case mapping. -/
def toLowerStr (s : String) : String :=
  String.mk (s.data.map Char.toLower)

/-- Does `p` end with one of the given extensions? Used to embed the
anchored alternation regexes of the rule table. -/
def endsWithAny (p : String) (sufs : List String) : Bool :=
  sufs.any (fun s => strEndsWith p s)

/-! ### Data model (`core/types.ts`) -/

/-- `FilePriority` from `core/types.ts`: one of the four tiers. -/
inductive FilePriority where
  | critical
  | high
  | normal
  | low
deriving DecidableEq, Repr

/-- `PrioritizedFile` from `core/types.ts` (the `path`/`content`
fields of `ChangedFile` plus tier and reason). -/
structure PrioritizedFile where
  path : String
  content : String
  priority : FilePriority
  reason : String
deriving DecidableEq, Repr

/-- A rule matcher: `pattern: RegExp | string` from `PriorityRule`.
A `RegExp` is embedded as its `test` function. -/
inductive RuleMatcher where
  | strM (s : String)
  | patM (test : String → Bool)

/-- `PriorityRule` from `core/types.ts`. -/
structure PriorityRule where
  pattern : RuleMatcher
  priority : FilePriority
  reason : String

/-! ### MetricsCalculator (`utils/metrics-calculator.ts`) -/

/-- `MetricsCalculator.estimateTokens`: `Math.ceil(text.length / 4)`. -/
def estimateTokens (text : String) : Nat :=
  (text.length + 3) / 4

/-! ### SmartFilter (`core/smart-filter.ts`) -/

/-- `SmartFilter.matchesPattern`: substring containment for string
matchers, `RegExp.test` for pattern matchers. -/
def matchesPattern (filePath : String) : RuleMatcher → Bool
  | .strM s => strIncludes filePath s
  | .patM test => test filePath

/-- `SmartFilter.determinePriority`: first matching rule wins, default
`low`. -/
def determinePriority (filePath : String) : List PriorityRule → FilePriority
  | [] => .low
  | r :: rs =>
      if matchesPattern filePath r.pattern then r.priority
      else determinePriority filePath rs

/-- `SmartFilter.getPriorityReason`: first matching rule wins, default
`"Unknown file type"`. -/
def getPriorityReason (filePath : String) : List PriorityRule → String
  | [] => "Unknown file type"
  | r :: rs =>
      if matchesPattern filePath r.pattern then r.reason
      else getPriorityReason filePath rs

/-- Test of `/src\/(auth|payments|billing|security)\//` (unanchored:
containment of one of the four directory segments). -/
def reSecurityDirs (p : String) : Bool :=
  strIncludes p "src/auth/" || strIncludes p "src/payments/" ||
    strIncludes p "src/billing/" || strIncludes p "src/security/"

/-- Test of `/src\/core\//`. -/
def reSrcCore (p : String) : Bool :=
  strIncludes p "src/core/"

/-- Test of `/\.(controller|guard|middleware)\.ts$/`. -/
def reHttpSecurity (p : String) : Bool :=
  endsWithAny p [".controller.ts", ".guard.ts", ".middleware.ts"]

/-- Test of `/src\/.*\.(ts|tsx|js|jsx|py|java|go)$/`. Because `.*`
matches any characters and the suffixes contain no `/`, the regex
accepts exactly the strings that contain `src/` and end in a dotted
extension from the list. -/
def reSrcSource (p : String) : Bool :=
  strIncludes p "src/" &&
    endsWithAny p [".ts", ".tsx", ".js", ".jsx", ".py", ".java", ".go"]

/-- Test of `/\.(service|repository|handler)\.(ts|js)$/`. -/
def reBusinessLayer (p : String) : Bool :=
  endsWithAny p [".service.ts", ".service.js", ".repository.ts",
    ".repository.js", ".handler.ts", ".handler.js"]

/-- Test of `/\.entity\.ts$/`. -/
def reEntity (p : String) : Bool :=
  strEndsWith p ".entity.ts"

/-- Test of `/\.(ts|tsx|js|jsx|py|java|go)$/`. -/
def reCodeFile (p : String) : Bool :=
  endsWithAny p [".ts", ".tsx", ".js", ".jsx", ".py", ".java", ".go"]

/-- Test of `/\.test\.(ts|tsx|js|jsx)$/`. -/
def reTestFile (p : String) : Bool :=
  endsWithAny p [".test.ts", ".test.tsx", ".test.js", ".test.jsx"]

/-- Test of `/\.spec\.(ts|tsx|js|jsx)$/`. -/
def reSpecFile (p : String) : Bool :=
  endsWithAny p [".spec.ts", ".spec.tsx", ".spec.js", ".spec.jsx"]

/-- Test of `/\.(md|txt|json|yaml|yml)$/`. -/
def reConfigDoc (p : String) : Bool :=
  endsWithAny p [".md", ".txt", ".json", ".yaml", ".yml"]

/-- `SmartFilter.defaultPriorityRules`, in source order. -/
def defaultPriorityRules : List PriorityRule :=
  [ { pattern := .patM reSecurityDirs, priority := .critical,
      reason := "Security-critical module" },
    { pattern := .patM reSrcCore, priority := .critical,
      reason := "Core business logic" },
    { pattern := .patM reHttpSecurity, priority := .critical,
      reason := "HTTP security layer" },
    { pattern := .patM reSrcSource, priority := .high,
      reason := "Source code" },
    { pattern := .patM reBusinessLayer, priority := .high,
      reason := "Business layer" },
    { pattern := .patM reEntity, priority := .high,
      reason := "Database schema" },
    { pattern := .patM reCodeFile, priority := .normal,
      reason := "Code file" },
    { pattern := .patM reTestFile, priority := .low,
      reason := "Test file" },
    { pattern := .patM reSpecFile, priority := .low,
      reason := "Spec file" },
    { pattern := .patM reConfigDoc, priority := .low,
      reason := "Config/Doc file" } ]

/-- The rule list used by `SmartFilter.prioritizeFiles`:
`[...this.defaultPriorityRules, ...this.customRules]` (built-ins
first, then custom rules). -/
def allRules (customRules : List PriorityRule) : List PriorityRule :=
  defaultPriorityRules ++ customRules

/-- The loop body of `SmartFilter.truncateToTokenLimit`, with the
mutable `currentTokens` accumulator made an explicit parameter; the
two result arrays are built in traversal order. -/
def truncAux (tokenLimit currentTokens : Nat) :
    List PrioritizedFile → List PrioritizedFile × List PrioritizedFile
  | [] => ([], [])
  | f :: fs =>
      let fileTokens := estimateTokens f.content
      if currentTokens + fileTokens ≤ tokenLimit then
        let r := truncAux tokenLimit (currentTokens + fileTokens) fs
        (f :: r.1, r.2)
      else
        let r := truncAux tokenLimit currentTokens fs
        (r.1, f :: r.2)

/-- `SmartFilter.truncateToTokenLimit`: returns
`(included, excluded)`. -/
def truncateToTokenLimit (prioritizedFiles : List PrioritizedFile)
    (tokenLimit : Nat) : List PrioritizedFile × List PrioritizedFile :=
  truncAux tokenLimit 0 prioritizedFiles

/-- Total estimated tokens of a file list. -/
def sumTokens (files : List PrioritizedFile) : Nat :=
  (files.map (fun f => estimateTokens f.content)).sum

/-! ### StrategySelector (`core/strategy-selector.ts`) -/

/-- `StrategyName` from `core/types.ts`. -/
inductive StrategyName where
  | small
  | medium
  | large
  | xlarge
  | skip
deriving DecidableEq, Repr

/-- `ReviewStrategy` from `core/types.ts`. -/
structure ReviewStrategy where
  name : StrategyName
  maxTokens : Nat
  contextTokenBudget : Nat
  instructions : String
deriving DecidableEq, Repr

/-- `StrategySelector.strategies`, the default strategy table. -/
def strategies : StrategyName → ReviewStrategy
  | .small =>
      { name := .small, maxTokens := 16000, contextTokenBudget := 4000,
        instructions :=
          "Comprehensive review of all changes with detailed feedback." }
  | .medium =>
      { name := .medium, maxTokens := 12000, contextTokenBudget := 3000,
        instructions :=
          "Focus on critical issues and potential bugs. Skip minor style suggestions." }
  | .large =>
      { name := .large, maxTokens := 8000, contextTokenBudget := 2000,
        instructions :=
          "Focus only on critical security and bug issues. No style or minor suggestions." }
  | .xlarge =>
      { name := .xlarge, maxTokens := 4000, contextTokenBudget := 1000,
        instructions :=
          "Critical security issues only. Very large PR - recommend splitting." }
  | .skip =>
      { name := .skip, maxTokens := 0, contextTokenBudget := 0,
        instructions :=
          "PR is too large for meaningful review. Please split into smaller PRs." }

/-- The size-tier chain of `StrategySelector.select` (the
`if diffSize < 51200 ... else skip` cascade). -/
def baseStrategyFor (diffSize : Nat) : ReviewStrategy :=
  if diffSize < 51200 then strategies .small
  else if diffSize < 153600 then strategies .medium
  else if diffSize < 204800 then strategies .large
  else if diffSize < 819200 then strategies .xlarge
  else strategies .skip

/-- `StrategySelector.select`. The select method reads
`diffSize` from `analysis.metrics` and the two flags from
`analysis.context.flags`; they are its only inputs. On integer token
budgets `Math.floor(x * 1.5)` is `x * 3 / 2` in natural division; the
code applies it exactly when `criticalModule` holds (its
`criticalBoost > 1` test). -/
def select (diffSize : Nat) (criticalModule configOnly : Bool) :
    ReviewStrategy :=
  if configOnly then
    { strategies .small with
        instructions := "Quick review of configuration changes only." }
  else
    let strategy := baseStrategyFor diffSize
    if criticalModule then
      { strategy with
          maxTokens := strategy.maxTokens * 3 / 2,
          contextTokenBudget := strategy.contextTokenBudget * 3 / 2 }
    else strategy

/-! ### PatternMatcher (`false-positive/pattern-matcher.ts`) -/

/-- Issue kind of `ReviewIssue` from `core/types.ts`. -/
inductive IssueType where
  | bug
  | security
  | performance
  | maintainability
deriving DecidableEq, Repr

/-- Issue confidence of `ReviewIssue` from `core/types.ts`. -/
inductive IssueConfidence where
  | high
  | medium
deriving DecidableEq, Repr

/-- `ReviewIssue` from `core/types.ts`. -/
structure ReviewIssue where
  file : String
  line : Option Int
  type : IssueType
  confidence : IssueConfidence
  title : String
  description : String
  suggestion : Option String
deriving DecidableEq, Repr

/-- `FalsePositivePattern` from `core/types.ts`. The optional `RegExp`
field is embedded as its `test` function; `FPCategory` and the
severity union are plain strings. -/
structure FalsePositivePattern where
  id : String
  category : String
  pattern : Option (String → Bool)
  explanation : String
  severity : Option String
  contextRequired : Option (List String)
  falsePositiveIndicators : List String

/-- `PatternMatchResult` from `false-positive/pattern-matcher.ts`. -/
structure PatternMatchResult where
  isFalsePositive : Bool
  matchedPattern : Option FalsePositivePattern
  confidence : Rat
  matchedIndicators : List String

/-- The indicator loop of `PatternMatcher.matchPattern`: the
indicator phrases whose lowercase form occurs as a substring of
`issueText`, in catalog order (each contributes `+1` to the score). -/
def matchedIndicatorsOf (pattern : FalsePositivePattern)
    (issueText : String) : List String :=
  pattern.falsePositiveIndicators.filter
    (fun indicator => strIncludes issueText (toLowerStr indicator))

/-- The accumulated score of `PatternMatcher.matchPattern`: `+1` per
matched indicator, `+0.5` when the optional regex tests positive on
the supplied file content, `+0.3` when a required context marker is
found, `-0.5` when markers are declared (and content supplied) but
none is found. JS float literals are modelled as exact rationals. -/
def matchScore (pattern : FalsePositivePattern) (issueText : String)
    (fileContent : Option String) : Rat :=
  ((matchedIndicatorsOf pattern issueText).length : Rat) +
    (match pattern.pattern, fileContent with
     | some test, some fc => if test fc then (1/2 : Rat) else 0
     | _, _ => 0) +
    (match pattern.contextRequired, fileContent with
     | some ctxs, some fc =>
         if ctxs.any (fun ctx => strIncludes fc ctx) then (3/10 : Rat)
         else -(1/2)
     | _, _ => 0)

/-- `maxPossibleScore` from `PatternMatcher.matchPattern`: the
theoretical maximum of the accumulated score. -/
def maxPossibleScoreOf (pattern : FalsePositivePattern) : Rat :=
  (pattern.falsePositiveIndicators.length : Rat) +
    (if pattern.pattern.isSome then (1/2 : Rat) else 0) +
    (if pattern.contextRequired.isSome then (3/10 : Rat) else 0)

/-- The confidence of `PatternMatcher.matchPattern`:
`maxPossibleScore > 0 ? Math.min(score / maxPossibleScore, 1) : 0`. -/
def matchConfidence (pattern : FalsePositivePattern)
    (issueText : String) (fileContent : Option String) : Rat :=
  if 0 < maxPossibleScoreOf pattern then
    min (matchScore pattern issueText fileContent / maxPossibleScoreOf pattern) 1
  else 0

/-- `PatternMatcher.matchPattern`, assembled from the pieces above:
the verdict is `matchedIndicators.length >= 1 && confidence >= 0.3`. -/
def matchPattern (pattern : FalsePositivePattern) (issueText : String)
    (fileContent : Option String) : PatternMatchResult :=
  let matchedIndicators := matchedIndicatorsOf pattern issueText
  let confidence := matchConfidence pattern issueText fileContent
  let isFP :=
    decide (1 ≤ matchedIndicators.length) && decide ((3/10 : Rat) ≤ confidence)
  { isFalsePositive := isFP,
    matchedPattern := if isFP then some pattern else none,
    confidence := confidence,
    matchedIndicators := matchedIndicators }

/-- The issue text built by `PatternMatcher.checkIssue`:
lowercased concatenation of title, description and (optional)
suggestion. -/
def issueTextOf (issue : ReviewIssue) : String :=
  toLowerStr
    (issue.title ++ " " ++ issue.description ++ " " ++
      issue.suggestion.getD "")

/-- The scan loop of `PatternMatcher.checkIssue`: return the first
pattern match flagged as a false positive, else the no-match result. -/
def checkLoop (issueText : String) (fileContent : Option String) :
    List FalsePositivePattern → PatternMatchResult
  | [] =>
      { isFalsePositive := false, matchedPattern := none,
        confidence := 0, matchedIndicators := [] }
  | p :: ps =>
      let result := matchPattern p issueText fileContent
      if result.isFalsePositive then result
      else checkLoop issueText fileContent ps

/-- `PatternMatcher.checkIssue`, with the matcher's pattern list made
an explicit argument. -/
def checkIssue (patterns : List FalsePositivePattern)
    (issue : ReviewIssue) (fileContent : Option String) :
    PatternMatchResult :=
  checkLoop (issueTextOf issue) fileContent patterns

/-! ### ConsensusEngine response parsing (`core/consensus-engine.ts`)

`parseReviewResponse` first runs the JavaScript runtime's code-block
extraction and `JSON.parse` on the response text; those are external
(the JS standard library), so their outcome is taken as an input here:
`none` means `JSON.parse` threw, `some v` is the parsed JSON value.
Everything after the parse — the `issues` validation, the per-issue
field defaulting, and the `catch` fallback — is this repository's
code and is embedded below. -/

/-- A parsed JSON value. Numbers are rationals (only zero-ness is ever
inspected). -/
inductive JVal where
  | jnull
  | jbool (b : Bool)
  | jnum (q : Rat)
  | jstr (s : String)
  | jarr (elems : List JVal)
  | jobj (fields : List (String × JVal))

/-- Field lookup in a parsed JSON object. `JSON.parse` keeps the last
occurrence of a duplicated key, hence the reversed search. -/
def jLookupFields (fields : List (String × JVal)) (key : String) :
    Option JVal :=
  (fields.reverse.find? (fun kv => kv.1 == key)).map (fun kv => kv.2)

/-- Reading a property of a JSON value, as in the engine's duck-typed
field accesses: `none` in the outer layer means a `TypeError` was
thrown (property access on `null`); `some none` means the property is
absent (`undefined`). -/
def fieldAccess : JVal → String → Option (Option JVal)
  | .jnull, _ => none
  | .jobj fields, key => some (jLookupFields fields key)
  | _, _ => some none

/-- Property lookup used in theorem statements: the field of a JSON
object, if any. -/
def jLookup (v : JVal) (key : String) : Option JVal :=
  match v with
  | .jobj fields => jLookupFields fields key
  | _ => none

/-- JavaScript falsiness of a JSON value (`undefined` is handled at
the `Option` layer by the callers). -/
def isFalsy : JVal → Bool
  | .jnull => true
  | .jbool b => !b
  | .jnum q => q == 0
  | .jstr s => s == ""
  | .jarr _ => false
  | .jobj _ => false

/-- JavaScript `v || d` on an optionally-present value: the default
when the value is absent or falsy. -/
def jsOr (v : Option JVal) (d : JVal) : JVal :=
  match v with
  | some x => if isFalsy x then d else x
  | none => d

/-- An issue as normalized by `parseReviewResponse`. The engine's
normalization is duck-typed (a non-string `file` value passes through
unchanged), so the fields keep their raw JSON values; `none` in
`line`/`suggestion` is JavaScript `undefined`. -/
structure ParsedIssue where
  file : JVal
  line : Option JVal
  type : JVal
  confidence : JVal
  title : JVal
  description : JVal
  suggestion : Option JVal

/-- The per-issue normalization inside `parseReviewResponse`'s `map`:
each missing/falsy field is replaced by its default. Reading a
property of a `null` array element throws (`none`), which the
surrounding `catch` turns into the fallback response. -/
def normalizeIssue (e : JVal) : Option ParsedIssue :=
  match e with
  | .jnull => none
  | _ =>
      some
        { file := jsOr (jLookup e "file") (.jstr "unknown"),
          line := jLookup e "line",
          type := jsOr (jLookup e "type") (.jstr "maintainability"),
          confidence := jsOr (jLookup e "confidence") (.jstr "medium"),
          title := jsOr (jLookup e "title") (.jstr "Issue"),
          description := jsOr (jLookup e "description") (.jstr ""),
          suggestion := jLookup e "suggestion" }

/-- `CodeReviewResponse` as produced by `parseReviewResponse`: the
normalized issues plus the consensus object (passed through verbatim
when present, hence kept as a raw JSON value). -/
structure CodeReviewResponse where
  issues : List ParsedIssue
  consensus : JVal

/-- The fallback `CodeReviewResponse` returned both by the
invalid-format branch and by the `catch` handler. -/
def fallbackResponse : CodeReviewResponse :=
  { issues := [],
    consensus := .jobj
      [ ("totalReviewed", .jnum 0),
        ("issuesRaised", .jnum 0),
        ("issuesFiltered", .jnum 0),
        ("overallAssessment", .jstr "Failed to parse review response") ] }

/-- The synthesized consensus `parsed.consensus || {...}` used when
the response carries no (truthy) consensus object. -/
def defaultConsensus (issueCount : Nat) : JVal :=
  .jobj
    [ ("totalReviewed", .jnum 0),
      ("issuesRaised", .jnum issueCount),
      ("issuesFiltered", .jnum 0),
      ("overallAssessment",
        .jstr (if 0 < issueCount then "Issues found" else "No issues found")) ]

/-- The body of `parseReviewResponse`'s `try` block after `JSON.parse`
succeeded: `none` models a thrown exception (handled by the `catch`).
`!parsed.issues || !Array.isArray(parsed.issues)` sends every absent,
falsy or non-array `issues` value to the invalid-format fallback; a
(necessarily truthy) array proceeds to normalization. -/
def parseReviewBody (parsed : JVal) : Option CodeReviewResponse :=
  match fieldAccess parsed "issues" with
  | none => none
  | some issuesField =>
      match issuesField with
      | some (.jarr elems) =>
          match elems.mapM normalizeIssue with
          | none => none
          | some issues =>
              match fieldAccess parsed "consensus" with
              | none => none
              | some consensusField =>
                  some
                    { issues := issues,
                      consensus :=
                        match consensusField with
                        | some c =>
                            if isFalsy c then defaultConsensus issues.length
                            else c
                        | none => defaultConsensus issues.length }
      | _ => some fallbackResponse

/-- `ConsensusEngine.parseReviewResponse`, given the outcome of the
external `JSON.parse` (`none` = the parse threw). The `catch` handler
maps any thrown exception to the fallback response, so the embedded
function is total: no exception reaches the caller. -/
def parseReviewResponse (parsed : Option JVal) : CodeReviewResponse :=
  match parsed with
  | none => fallbackResponse
  | some v => (parseReviewBody v).getD fallbackResponse

/-! ### Packing invariants (smart-filter) -/

/-- Loop invariant of `truncateToTokenLimit`: with `currentTokens`
already spent and within the limit, the tokens of the files selected
by the rest of the scan still fit. -/
lemma truncAux_sum_le (tokenLimit : Nat) :
    ∀ (fs : List PrioritizedFile) (currentTokens : Nat),
      currentTokens ≤ tokenLimit →
      currentTokens + sumTokens (truncAux tokenLimit currentTokens fs).1 ≤
        tokenLimit := by
  intro fs
  induction fs with
  | nil =>
      intro cur h
      simpa [truncAux, sumTokens] using h
  | cons f fs ih =>
      intro cur h
      by_cases hc : cur + estimateTokens f.content ≤ tokenLimit
      · have hrec := ih (cur + estimateTokens f.content) hc
        simp only [truncAux, if_pos hc, sumTokens, List.map_cons,
          List.sum_cons] at hrec ⊢
        omega
      · simpa only [truncAux, if_neg hc] using ih cur h

/-- Claim C1: for every list of prioritized files and every token
budget, the sum of estimated token counts (`ceil(characterCount / 4)`
per file) of the files returned in the `included` component of
`truncateToTokenLimit` never exceeds the supplied budget. -/
theorem truncate_included_within_budget
    (prioritizedFiles : List PrioritizedFile) (tokenLimit : Nat) :
    sumTokens (truncateToTokenLimit prioritizedFiles tokenLimit).1 ≤
      tokenLimit := by
  simpa [truncateToTokenLimit] using
    truncAux_sum_le tokenLimit prioritizedFiles 0 (Nat.zero_le _)

/-- Example file worth 2 estimated tokens (8 characters). -/
def exFileA : PrioritizedFile :=
  { path := "src/core/a.ts", content := "aaaaaaaa",
    priority := .critical, reason := "Core business logic" }

/-- Example file worth 3 estimated tokens (12 characters). -/
def exFileB : PrioritizedFile :=
  { path := "src/b.ts", content := "bbbbbbbbbbbb",
    priority := .high, reason := "Source code" }

/-- Example file worth 1 estimated token (4 characters). -/
def exFileC : PrioritizedFile :=
  { path := "README.md", content := "cccc",
    priority := .low, reason := "Config/Doc file" }

/-- Claim C2: the packing loop scans the list in order and includes a
file exactly when `runningTotal + fileTokens <= budget` (adding its
tokens to the running total), otherwise excludes it and keeps
scanning; concretely, with budget 3 the 3-token file `exFileB`
overflows (2 + 3 > 3) and is excluded, while the later 1-token file
`exFileC` still fits individually (2 + 1 <= 3) and is included —
first-fit-in-order, not stop-at-first-overflow. -/
theorem truncate_first_fit_in_order :
    (∀ (tokenLimit currentTokens : Nat) (f : PrioritizedFile)
        (fs : List PrioritizedFile),
      truncAux tokenLimit currentTokens (f :: fs) =
        if currentTokens + estimateTokens f.content ≤ tokenLimit then
          (f :: (truncAux tokenLimit
              (currentTokens + estimateTokens f.content) fs).1,
            (truncAux tokenLimit
              (currentTokens + estimateTokens f.content) fs).2)
        else
          ((truncAux tokenLimit currentTokens fs).1,
            f :: (truncAux tokenLimit currentTokens fs).2)) ∧
    truncateToTokenLimit [exFileA, exFileB, exFileC] 3 =
      ([exFileA, exFileC], [exFileB]) := by
  constructor
  · intro tokenLimit currentTokens f fs
    simp only [truncAux]
  · decide

/-- Both components of `truncAux` are subsequences of the input, and
together they are a permutation of it. -/
lemma truncAux_partition (tokenLimit : Nat) :
    ∀ (fs : List PrioritizedFile) (currentTokens : Nat),
      (truncAux tokenLimit currentTokens fs).1.Sublist fs ∧
      (truncAux tokenLimit currentTokens fs).2.Sublist fs ∧
      ((truncAux tokenLimit currentTokens fs).1 ++
        (truncAux tokenLimit currentTokens fs).2).Perm fs := by
  intro fs
  induction fs with
  | nil =>
      intro cur
      exact ⟨List.Sublist.refl _, List.Sublist.refl _, List.Perm.refl _⟩
  | cons f fs ih =>
      intro cur
      by_cases hc : cur + estimateTokens f.content ≤ tokenLimit
      · obtain ⟨h1, h2, h3⟩ := ih (cur + estimateTokens f.content)
        simp only [truncAux, if_pos hc]
        exact ⟨h1.cons₂ f, h2.cons f, by simpa using h3.cons f⟩
      · obtain ⟨h1, h2, h3⟩ := ih cur
        simp only [truncAux, if_neg hc]
        exact ⟨h1.cons f, h2.cons₂ f,
          List.perm_middle.trans (h3.cons f)⟩

/-- Claim C10: `truncateToTokenLimit` partitions its input — the
`included` and `excluded` components are subsequences of the input
(hence each preserves the input's relative order), and their
concatenation is a permutation of the input (hence every input file
appears in exactly one of them, none duplicated or dropped). -/
theorem truncate_partitions_input (files : List PrioritizedFile)
    (tokenLimit : Nat) :
    (truncateToTokenLimit files tokenLimit).1.Sublist files ∧
    (truncateToTokenLimit files tokenLimit).2.Sublist files ∧
    ((truncateToTokenLimit files tokenLimit).1 ++
      (truncateToTokenLimit files tokenLimit).2).Perm files :=
  truncAux_partition tokenLimit files 0

/-- A file whose `patch` was absent upstream: its content is the
empty string, so its estimated token count is `ceil(0 / 4) = 0`. -/
def emptyContentFile : PrioritizedFile :=
  { path := "empty.md", content := "",
    priority := .low, reason := "Config/Doc file" }

/-- Claim C8 counterexample: with a budget of 0 the empty-content
file still satisfies `0 + 0 <= 0` and is included, so the `included`
list is not empty. -/
theorem truncate_zero_budget_counterexample :
    (truncateToTokenLimit [emptyContentFile] 0).1 = [emptyContentFile] ∧
    (truncateToTokenLimit [emptyContentFile] 0).1 ≠ [] := by decide

/-- Claim C8 (amended): with a budget of 0, every file with nonempty
content is excluded; the `included` list is empty whenever all files
have nonempty content (and no error is raised — the function is
total). -/
theorem truncate_zero_budget_included_empty
    (files : List PrioritizedFile)
    (h : ∀ f ∈ files, f.content ≠ "") :
    (truncateToTokenLimit files 0).1 = [] := by
  induction files with
  | nil => rfl
  | cons f fs ih =>
      have hlen : 1 ≤ f.content.length := by
        cases hs : f.content.data with
        | nil => exact absurd (String.ext hs) (h f (List.mem_cons_self f fs))
        | cons c cs => simp [String.length, hs]
      have htok : 1 ≤ estimateTokens f.content := by
        rw [estimateTokens, Nat.le_div_iff_mul_le (by norm_num)]
        omega
      have hc : ¬ (0 + estimateTokens f.content ≤ 0) := by omega
      have hrest := ih (fun g hg => h g (List.mem_cons_of_mem f hg))
      simp only [truncateToTokenLimit, truncAux, if_neg hc] at hrest ⊢
      exact hrest

/-- A file with nonempty content (4 characters, 1 estimated token). -/
def nonemptyContentFile : PrioritizedFile :=
  { path := "src/core/a.ts", content := "abcd",
    priority := .critical, reason := "Core business logic" }

/-- Witness for the amended claim C8 at a concrete input. -/
theorem truncate_zero_budget_included_empty_witness :
    (∀ f ∈ [nonemptyContentFile], f.content ≠ "") ∧
    (truncateToTokenLimit [nonemptyContentFile] 0).1 = [] :=
  ⟨by decide,
    truncate_zero_budget_included_empty [nonemptyContentFile] (by decide)⟩

/-! ### Strategy selection (strategy-selector) -/

/-- Claim C3: with the default strategy table, the size-to-tier
mapping of `select` has exclusive upper bounds — 51,199 bytes is
`small`, 51,200 is `medium`, 819,199 is `xlarge`, and 819,200 is
`skip` with `maxTokens = 0` — for non-config-only changes and either
value of the critical-module flag (selection is a pure function of
`(diffSize, criticalModule, configOnly)` by construction of
`select`). -/
theorem select_size_tier_boundaries (criticalModule : Bool) :
    (select 51199 criticalModule false).name = .small ∧
    (select 51200 criticalModule false).name = .medium ∧
    (select 819199 criticalModule false).name = .xlarge ∧
    (select 819200 criticalModule false).name = .skip ∧
    (select 819200 criticalModule false).maxTokens = 0 := by
  cases criticalModule <;> decide

/-- Claim C4: with default strategies, when `criticalModule` holds
and `configOnly` does not, the selected strategy's `maxTokens` and
`contextTokenBudget` are the base tier's values multiplied by 1.5 and
floored (`x * 3 / 2` on naturals), e.g. base 16,000 becomes 24,000;
and when `configOnly` holds, `select` always returns the `small`
strategy with its instructions overridden to the
quick-configuration-review text, regardless of diff size and of the
critical-module flag, with no boost applied. -/
theorem select_critical_boost_and_config_only :
    (∀ diffSize : Nat,
      (select diffSize true false).maxTokens =
        (baseStrategyFor diffSize).maxTokens * 3 / 2 ∧
      (select diffSize true false).contextTokenBudget =
        (baseStrategyFor diffSize).contextTokenBudget * 3 / 2) ∧
    (select 40000 true false).maxTokens = 24000 ∧
    (∀ (diffSize : Nat) (criticalModule : Bool),
      select diffSize criticalModule true =
        { strategies .small with
            instructions := "Quick review of configuration changes only." }) := by
  refine ⟨fun diffSize => ?_, by decide, fun diffSize criticalModule => ?_⟩
  · simp [select]
  · simp [select]

/-! ### Tier assignment (smart-filter rules) -/

/-- `determinePriority` returns the priority of the first rule whose
matcher accepts the path, default `low`. -/
lemma determinePriority_eq_find (filePath : String) :
    ∀ rules : List PriorityRule,
      determinePriority filePath rules =
        ((rules.find? (fun r => matchesPattern filePath r.pattern)).map
          (fun r => r.priority)).getD .low := by
  intro rules
  induction rules with
  | nil => rfl
  | cons r rs ih =>
      cases hm : matchesPattern filePath r.pattern with
      | true =>
          simp [determinePriority, hm, List.find?_cons_of_pos _ hm]
      | false =>
          have hm' : ¬ ((fun r => matchesPattern filePath r.pattern) r = true) := by
            simp [hm]
          simp [determinePriority, hm, List.find?_cons_of_neg _ hm', ih]

/-- `getPriorityReason` returns the reason of the first rule whose
matcher accepts the path, default `"Unknown file type"`. -/
lemma getPriorityReason_eq_find (filePath : String) :
    ∀ rules : List PriorityRule,
      getPriorityReason filePath rules =
        ((rules.find? (fun r => matchesPattern filePath r.pattern)).map
          (fun r => r.reason)).getD "Unknown file type" := by
  intro rules
  induction rules with
  | nil => rfl
  | cons r rs ih =>
      cases hm : matchesPattern filePath r.pattern with
      | true =>
          simp [getPriorityReason, hm, List.find?_cons_of_pos _ hm]
      | false =>
          have hm' : ¬ ((fun r => matchesPattern filePath r.pattern) r = true) := by
            simp [hm]
          simp [getPriorityReason, hm, List.find?_cons_of_neg _ hm', ih]

/-- Claim C9 counterexample: `"Makefile"` matches no rule of the
default table, and the code's no-match reason is the capitalized,
unpunctuated `"Unknown file type"`, not the claimed
`"unknown file type."` (in either punctuation). -/
theorem priority_reason_default_counterexample :
    determinePriority "Makefile" (allRules []) = .low ∧
    getPriorityReason "Makefile" (allRules []) = "Unknown file type" ∧
    getPriorityReason "Makefile" (allRules []) ≠ "unknown file type." ∧
    getPriorityReason "Makefile" (allRules []) ≠ "unknown file type" := by
  decide

/-- Claim C9 (amended): over the rule list `prioritizeFiles` builds
(built-in rules first, then custom rules), tier assignment is the
first-match scan — it returns the priority and reason of the first
rule whose matcher accepts the path (substring containment for string
matchers, the regex test for pattern matchers, per `matchesPattern`) —
it is a pure function of the path and rule list, the result is always
one of the four tiers, and when no rule matches the tier is `low`
with reason `"Unknown file type"`. -/
theorem determinePriority_first_match (filePath : String)
    (customRules : List PriorityRule) :
    (determinePriority filePath (allRules customRules) =
      (((allRules customRules).find?
        (fun r => matchesPattern filePath r.pattern)).map
          (fun r => r.priority)).getD .low) ∧
    (getPriorityReason filePath (allRules customRules) =
      (((allRules customRules).find?
        (fun r => matchesPattern filePath r.pattern)).map
          (fun r => r.reason)).getD "Unknown file type") ∧
    (determinePriority filePath (allRules customRules) = .critical ∨
      determinePriority filePath (allRules customRules) = .high ∨
      determinePriority filePath (allRules customRules) = .normal ∨
      determinePriority filePath (allRules customRules) = .low) := by
  refine ⟨determinePriority_eq_find filePath _,
    getPriorityReason_eq_find filePath _, ?_⟩
  cases determinePriority filePath (allRules customRules) <;> simp

/-! ### False-positive pattern matching (pattern-matcher) -/

/-- Claim C5: an issue whose combined title/description/suggestion
text contains none of a pattern's indicator phrases (case-insensitive
substring match) is never classified as a false positive by that
pattern, whatever the content-matcher or context-marker signals; in
general the false-positive verdict requires at least one matched
indicator phrase and normalized confidence at least 0.3. -/
theorem no_indicator_no_false_positive :
    (∀ (issue : ReviewIssue) (pattern : FalsePositivePattern)
        (fileContent : Option String),
      (∀ indicator ∈ pattern.falsePositiveIndicators,
        strIncludes (issueTextOf issue) (toLowerStr indicator) = false) →
      (matchPattern pattern (issueTextOf issue) fileContent).isFalsePositive =
        false) ∧
    (∀ (pattern : FalsePositivePattern) (issueText : String)
        (fileContent : Option String),
      (matchPattern pattern issueText fileContent).isFalsePositive = true →
      1 ≤ (matchPattern pattern issueText fileContent).matchedIndicators.length ∧
      (3/10 : Rat) ≤ (matchPattern pattern issueText fileContent).confidence) := by
  constructor
  · intro issue pattern fileContent h
    have hm : matchedIndicatorsOf pattern (issueTextOf issue) = [] := by
      refine List.filter_eq_nil_iff.mpr ?_
      intro a ha
      simp [h a ha]
    simp [matchPattern, hm]
  · intro pattern issueText fileContent h
    simp only [matchPattern, Bool.and_eq_true, decide_eq_true_eq] at h ⊢
    exact h

/-- An issue mentioning no catalog indicator phrase (test scenario 6
of the spec). -/
def nullRefIssue : ReviewIssue :=
  { file := "src/a.ts", line := none, type := .bug, confidence := .high,
    title := "Null reference",
    description := "Potential null pointer dereference",
    suggestion := none }

/-- A catalog pattern whose only indicator phrase is
`"remove console.log"`. -/
def consoleLogPattern : FalsePositivePattern :=
  { id := "console-log", category := "logging", pattern := none,
    explanation := "Console statements are flagged intentionally",
    severity := none, contextRequired := none,
    falsePositiveIndicators := ["remove console.log"] }

/-- Witness for claim C5 at a concrete issue and pattern. -/
theorem no_indicator_no_false_positive_witness :
    (∀ indicator ∈ consoleLogPattern.falsePositiveIndicators,
      strIncludes (issueTextOf nullRefIssue) (toLowerStr indicator) = false) ∧
    (matchPattern consoleLogPattern (issueTextOf nullRefIssue)
      none).isFalsePositive = false :=
  ⟨by decide,
    no_indicator_no_false_positive.1 nullRefIssue consoleLogPattern none
      (by decide)⟩

/-- A pattern declaring a required context marker: when the marker is
absent from the supplied file content the score takes the -0.5
penalty. -/
def contextPenaltyPattern : FalsePositivePattern :=
  { id := "ctx-pattern", category := "validation", pattern := none,
    explanation := "Needs surrounding context to be a false positive",
    severity := none, contextRequired := some ["useEffect"],
    falsePositiveIndicators := ["remove console.log"] }

/-- Claim C6 is false of the code: `confidence` is
`Math.min(score / maxPossibleScore, 1)` with no lower clamp, so a
pattern with a declared-but-unmet context requirement and no matched
indicator yields score `-0.5`, maximum `1.3`, and confidence
`-5/13 < 0` — outside the claimed (and code-documented) interval
`[0, 1]`. -/
theorem matchPattern_confidence_below_zero :
    (matchPattern contextPenaltyPattern "potential null dereference"
      (some "const x = 1")).confidence < 0 := by
  have h1 : matchedIndicatorsOf contextPenaltyPattern
      "potential null dereference" = [] := by decide
  have h2 : (["useEffect"].any
      (fun ctx => strIncludes "const x = 1" ctx)) = false := by decide
  have hscore : matchScore contextPenaltyPattern
      "potential null dereference" (some "const x = 1") = -(1/2) := by
    simp only [matchScore]
    rw [h1]
    simp only [contextPenaltyPattern]
    rw [h2]
    norm_num
  have hmax : maxPossibleScoreOf contextPenaltyPattern = 13/10 := by
    simp only [maxPossibleScoreOf, contextPenaltyPattern]
    norm_num
  have hconf : matchConfidence contextPenaltyPattern
      "potential null dereference" (some "const x = 1") =
      min (-(1/2) / (13/10) : Rat) 1 := by
    rw [matchConfidence, hscore, hmax]
    norm_num
  show matchConfidence contextPenaltyPattern "potential null dereference"
      (some "const x = 1") < 0
  rw [hconf, min_def]
  norm_num

/-! ### Response parsing (consensus-engine) -/

/-- Claim C7: whenever the response text fails to parse as JSON, or
the parsed value has no `issues` field, or `issues` is not an array,
`parseReviewResponse` returns an empty issue list whose consensus
assessment is the string `"Failed to parse review response"`; it is a
total function, so no exception reaches the caller. -/
theorem parse_failure_returns_labeled_empty (parsed : Option JVal)
    (h : parsed = none ∨
      ∃ v, parsed = some v ∧
        ∀ elems, fieldAccess v "issues" ≠ some (some (JVal.jarr elems))) :
    (parseReviewResponse parsed).issues = [] ∧
    jLookup (parseReviewResponse parsed).consensus "overallAssessment" =
      some (JVal.jstr "Failed to parse review response") := by
  have hfb : fallbackResponse.issues = [] ∧
      jLookup fallbackResponse.consensus "overallAssessment" =
        some (JVal.jstr "Failed to parse review response") := ⟨rfl, rfl⟩
  rcases h with h | ⟨v, hv, hno⟩
  · subst h
    exact hfb
  · subst hv
    have hbody : parseReviewBody v = none ∨
        parseReviewBody v = some fallbackResponse := by
      unfold parseReviewBody
      cases hfa : fieldAccess v "issues" with
      | none => exact Or.inl rfl
      | some w =>
          cases w with
          | none => exact Or.inr rfl
          | some u =>
              cases u with
              | jnull => exact Or.inr rfl
              | jbool b => exact Or.inr rfl
              | jnum q => exact Or.inr rfl
              | jstr s => exact Or.inr rfl
              | jarr elems => exact absurd hfa (hno elems)
              | jobj fields => exact Or.inr rfl
    rcases hbody with h1 | h1 <;>
      · simp only [parseReviewResponse, h1, Option.getD]
        exact hfb

/-- Witness for claim C7 at a concrete failed parse. -/
theorem parse_failure_returns_labeled_empty_witness :
    ((none : Option JVal) = none ∨
      ∃ v, (none : Option JVal) = some v ∧
        ∀ elems, fieldAccess v "issues" ≠ some (some (JVal.jarr elems))) ∧
    ((parseReviewResponse none).issues = [] ∧
      jLookup (parseReviewResponse none).consensus "overallAssessment" =
        some (JVal.jstr "Failed to parse review response")) :=
  ⟨Or.inl rfl, parse_failure_returns_labeled_empty none (Or.inl rfl)⟩

end DialecticPR
